import Mathlib

/-!
Verification of the CSV-to-table normalization/filtering pipeline and the
PDF sheet renderer of `src/csv_data_viewer_app.py`.

Strings are modelled as `List Char`; a dataframe cell is `Option (List Char)`
where `none` stands for a pandas missing value (NaN) and `some s` for a
textual cell.  Pure Python/pandas operations are translated function by
function; the Streamlit UI layer (widgets, session state) is outside the
claims and is not modelled.
-/

/-- A textual value, modelled as a list of characters. -/
abbrev Str := List Char

/-- A dataframe cell: `none` is a pandas missing value (NaN), `some s` a string. -/
abbrev Cell := Option Str

/-- Characters that Python `str.strip()` removes: exactly the code points for
which Python `str.isspace()` holds (ASCII whitespace, the information
separators, and the Unicode space characters). -/
def pyIsSpace (c : Char) : Bool :=
  let n := c.toNat
  (9 ≤ n && n ≤ 13) || (28 ≤ n && n ≤ 32) || n = 133 || n = 160 || n = 5760 ||
    (8192 ≤ n && n ≤ 8202) || n = 8232 || n = 8233 || n = 8239 || n = 8287 || n = 12288

/-- Python `str.strip()`: drop leading and trailing whitespace. -/
def pyStrip (s : Str) : Str :=
  ((s.dropWhile pyIsSpace).reverse.dropWhile pyIsSpace).reverse

/-- The effect of the alternative `^="` of the pattern `r'^="|"$'` in
`re.sub(r'^="|"$', '', val)`: remove one literal `="` at the start of the
string (the `^` anchor can only match at position 0, so at most one removal). -/
def removeLeadMarker (s : Str) : Str :=
  match s with
  | '=' :: '"' :: rest => rest
  | _ => s

/-- The effect of the alternative `"$` of the pattern `r'^="|"$'`: remove a
literal `"` that sits at the very end of the string or immediately before a
single final newline (Python `$` matches at end of string and just before a
trailing `\n`).  At most one position can match. -/
def removeTrailQuote (s : Str) : Str :=
  match s.reverse with
  | '"' :: rest => rest.reverse
  | '\n' :: '"' :: rest => ('\n' :: rest).reverse
  | _ => s

/-- The function `clean_value` on a textual cell:
`re.sub(r'^="|"$', '', val).strip()`.  The two alternatives of the pattern
match at disjoint positions (start anchor vs end anchor), so the single
left-to-right `re.sub` pass is the leading removal followed by the trailing
removal. -/
def cleanStr (s : Str) : Str :=
  pyStrip (removeTrailQuote (removeLeadMarker s))

/-- The cell-level `clean_value(val)`: strings are cleaned, non-strings (NaN) pass through. -/
def clean_value (c : Cell) : Cell :=
  c.map cleanStr


/-! ## The normalizer: column labels, rename, label-based selection, cleaning, dropna

The script does not select columns positionally.  Line 28 renames
(`df.columns = ["Name", "UOM", "Value"] + list(df.columns[3:])`) and line 34
selects *by label* (`df[["Name", "UOM", "Value"]]`).  With a header row
whose cell at position 3 or later is literally `Name`, `UOM` or `Value`,
the rename duplicates a label; label selection then keeps every matching
column (one extra column per collision) and `dropna(subset=["Name"])`
spans all Name-labelled columns.  The embedding therefore carries column
labels and models the selection over them.  One simplification: pandas
`read_csv` mangles a header cell repeating an *earlier* header cell into
`name.1`; the model keeps the literal text.  Mangling only renames such a
repeat away from `Name`/`UOM`/`Value`, so a model-level collision can be a
real non-collision but never the other way round: the no-collision
hypotheses below are (slightly conservatively) sound, and the collision
counterexample uses a header without repeated cells, where the model is
exact. -/

/-- One logical row of the normalized table, with the three fields in the
fixed order Name, UOM, Value that the rename gives the first three
columns. -/
structure Record where
  name : Cell
  uom : Cell
  value : Cell
deriving DecidableEq, Repr

/-- The normalized table: an ordered sequence of records.  Row identity is
positional, so pandas `reset_index(drop=True)` (dense 0-based reindexing) is
intrinsic to the list representation. -/
structure Table where
  records : List Record
deriving DecidableEq, Repr

/-- The parsed CSV grid as pandas sees it: `ncols` is `df.shape[1]` and each
row lists its cells; `pd.read_csv` pads a short physical row with NaN, which
`cellAt` reproduces by defaulting to `none` past the row's end.  With the
header checkbox ticked, the first row of `rows` is the header row. -/
structure RawDF where
  ncols : Nat
  rows : List (List Cell)
deriving DecidableEq, Repr

/-- Normalization fails with `tooFewColumns` when `df.shape[1] < 3`
(`st.error(...)`/`st.stop()` in the script: the run stops with no table).
It fails with `duplicateLabels` when the label-based selection keeps a
colliding column: the pipeline's frame then has more than the three fields
and the three-field Table the rest of the script assumes never exists
(reachable only with a header row whose cell beyond the third is literally
`Name`, `UOM` or `Value`). -/
inductive SchemaError where
  | tooFewColumns
  | duplicateLabels
deriving DecidableEq, Repr

deriving instance DecidableEq for Except

/-- A pandas column label: a textual header cell, pandas' `Unnamed: n` for a
NaN header cell, or the `RangeIndex` integer when the upload has no header
row. -/
inductive ColLabel where
  | named (s : Str)
  | unnamed (n : Nat)
  | idx (n : Nat)
deriving DecidableEq, Repr

/-- Cell `i` of a row, `none` (NaN) when the row is shorter. -/
def cellAt (row : List Cell) (i : Nat) : Cell :=
  row.getD i none

/-- The column labels `pd.read_csv(..., header=0 if use_header else None)`
produces: with a header row, label `j` is the header's cell `j` (text gives
the label itself, NaN gives `Unnamed: j`); without, the `RangeIndex` label
`j`. -/
def origLabels (df : RawDF) (hasHeader : Bool) : List ColLabel :=
  if hasHeader then
    (List.range df.ncols).map (fun j =>
      match cellAt (df.rows.headD []) j with
      | some s => ColLabel.named s
      | none => ColLabel.unnamed j)
  else
    (List.range df.ncols).map ColLabel.idx

/-- The label `Name` that line 28 writes on column 0. -/
def nameLabel : ColLabel := ColLabel.named (String.toList "Name")

/-- The label `UOM` that line 28 writes on column 1. -/
def uomLabel : ColLabel := ColLabel.named (String.toList "UOM")

/-- The label `Value` that line 28 writes on column 2. -/
def valueLabel : ColLabel := ColLabel.named (String.toList "Value")

/-- The selection list of line 34, `["Name", "UOM", "Value"]`. -/
def tableLabels : List ColLabel := [nameLabel, uomLabel, valueLabel]

/-- Line 28's rename, `df.columns = ["Name", "UOM", "Value"] +
list(df.columns[3:])`: the first three labels become Name, UOM, Value and
labels beyond the third keep their `read_csv` values — duplicates may
arise. -/
def renamedLabels (df : RawDF) (hasHeader : Bool) : List ColLabel :=
  tableLabels ++ (origLabels df hasHeader).drop 3

/-- The column positions carrying a given label, from position `j` on, in
increasing order. -/
def labelPositionsFrom (labels : List ColLabel) (lbl : ColLabel) (j : Nat) :
    List Nat :=
  match labels with
  | [] => []
  | l :: ls =>
      if l = lbl then j :: labelPositionsFrom ls lbl (j + 1)
      else labelPositionsFrom ls lbl (j + 1)

/-- All column positions carrying a given label, in increasing order. -/
def labelPositions (labels : List ColLabel) (lbl : ColLabel) : List Nat :=
  labelPositionsFrom labels lbl 0

/-- The column positions `df[["Name", "UOM", "Value"]]` keeps: for each
requested label every matching column, grouped per request in request
order (pandas `get_indexer_for` on a possibly non-unique column index). -/
def selectedCols (df : RawDF) (hasHeader : Bool) : List Nat :=
  labelPositions (renamedLabels df hasHeader) nameLabel ++
    labelPositions (renamedLabels df hasHeader) uomLabel ++
    labelPositions (renamedLabels df hasHeader) valueLabel

/-- No column beyond the third is relabelled to Name, UOM or Value — the
label-based selection then picks exactly columns 0, 1, 2.  Always true
when the upload has no header row (labels beyond the third are integers). -/
def noLabelCollision (df : RawDF) (hasHeader : Bool) : Bool :=
  ((origLabels df hasHeader).drop 3).all
    (fun lbl => !(decide (lbl ∈ tableLabels)))

/-- Project a row onto the selected column positions. -/
def selectCells (positions : List Nat) (row : List Cell) : List Cell :=
  positions.map (fun j => cellAt row j)

/-- The keep-condition of `df.dropna(subset=["Name"])` on the selected
frame: a row stays iff every cell sitting under a Name-labelled column is
present (pandas' `get_indexer_for(["Name"])` spans all Name-labelled
columns when the label is duplicated). -/
def dropnaKeep (labels : List ColLabel) (cells : List Cell) : Bool :=
  (labels.zip cells).all (fun p => !(decide (p.1 = nameLabel)) || p.2.isSome)

/-- The frame the pipeline carries after line 43: the labels and rows of
the label-selected, cleaned, Name-dropna'd dataframe. -/
structure SelectedFrame where
  labels : List ColLabel
  rows : List (List Cell)
deriving DecidableEq, Repr

/-- The data rows of the upload: `pd.read_csv(..., header=0 if use_header
else None)` consumes the first physical row as column labels when the
"first row contains headers" box is ticked. -/
def bodyRows (df : RawDF) (hasHeader : Bool) : List (List Cell) :=
  if hasHeader then df.rows.tail else df.rows

/-- The labels of the selected frame: the renamed label of each kept
column position. -/
def selLabels (df : RawDF) (hasHeader : Bool) : List ColLabel :=
  (selectedCols df hasHeader).map
    (fun j => (renamedLabels df hasHeader).getD j (ColLabel.idx 0))

/-- The data rows of the selected frame: each body row projected onto the
kept positions, every cell cleaned (`applymap(clean_value)` runs after the
selection), then `dropna(subset=["Name"])`. -/
def selRows (df : RawDF) (hasHeader : Bool) : List (List Cell) :=
  ((bodyRows df hasHeader).map
      (fun row => (selectCells (selectedCols df hasHeader) row).map clean_value)).filter
    (dropnaKeep (selLabels df hasHeader))

/-- Lines 27–43 of the script as one function: the `df.shape[1] >= 3`
check, the rename, the label-based selection `df[["Name", "UOM",
"Value"]]`, `applymap(clean_value)` and `dropna(subset=["Name"])`
(`reset_index(drop=True)` is intrinsic to the list representation).  The
result is the selected frame — three columns in the common case, more when
a later header label collides. -/
def normalizeFrame (df : RawDF) (hasHeader : Bool) :
    Except SchemaError SelectedFrame :=
  if 3 ≤ df.ncols then
    .ok ⟨selLabels df hasHeader, selRows df hasHeader⟩
  else
    .error .tooFewColumns

/-- Project a row of the three-column frame onto a `Record` (its cells are
Name, UOM, Value in this order). -/
def toRecord (row : List Cell) : Record :=
  ⟨cellAt row 0, cellAt row 1, cellAt row 2⟩

/-- Cleaning `df.applymap(clean_value)` on the three fields of a record. -/
def cleanRecord (r : Record) : Record :=
  ⟨clean_value r.name, clean_value r.uom, clean_value r.value⟩

/-- The record list of the collision-free case: first three columns,
cleaned, `dropna` on the Name field alone.  Proved below to be exactly the
frame's rows whenever the selection picks columns 0, 1, 2
(`frameRows_eq_normalizedRecords`). -/
def normalizedRecords (df : RawDF) (hasHeader : Bool) : List Record :=
  (((bodyRows df hasHeader).map toRecord).map cleanRecord).filter
    (fun r => r.name.isSome)

/-- View a selected frame as the three-field Table the rest of the script
assumes: this exists exactly when the selection kept the three renamed
columns and nothing else — with a colliding label the frame has extra
columns, downstream accesses like `df["Name"]` see a two-column object,
and no three-field Table is ever produced. -/
def frameToTable (fr : SelectedFrame) : Except SchemaError Table :=
  if fr.labels = tableLabels then
    .ok ⟨fr.rows.map toRecord⟩
  else
    .error .duplicateLabels

/-- The normalizer at the Table level: the frame pipeline of lines 27–43
followed by the three-field view. -/
def normalizeTable (df : RawDF) (hasHeader : Bool) : Except SchemaError Table :=
  match normalizeFrame df hasHeader with
  | .error e => .error e
  | .ok fr => frameToTable fr

/-! ## The search filter

`df[df["Name"].str.contains(search_term, case=False, na=False)]`: pandas
`str.contains` with its default `regex=True` runs `re.search(search_term,
name, re.IGNORECASE)` on each Name.  We embed the fragment of Python regular
expressions in which every character is either the metacharacter `.` (match
any character except newline) or a literal; every claim below is evaluated
on patterns inside this fragment, and the theorems about literal patterns
hypothesise that no Python regex metacharacter occurs at all, so that the
fragment and Python agree on the inputs used. -/

/-- A compiled pattern token: a literal character or the `.` wildcard. -/
inductive RTok where
  | lit (c : Char)
  | dot
deriving DecidableEq, Repr

/-- Compile a pattern of the embedded fragment: `.` becomes the wildcard,
every other character a literal. -/
def compilePat (p : Str) : List RTok :=
  p.map (fun c => if c = '.' then RTok.dot else RTok.lit c)

/-- One token against one character; literals compare case-insensitively
(`re.IGNORECASE` from `case=False`), `.` matches anything but newline. -/
def tokMatches (t : RTok) (c : Char) : Bool :=
  match t with
  | .dot => c ≠ '\n'
  | .lit a => a.toLower = c.toLower

/-- Match a token list against the front of a string (each token consumes
exactly one character). -/
def matchHere (ts : List RTok) (s : Str) : Bool :=
  match ts, s with
  | [], _ => true
  | _ :: _, [] => false
  | t :: ts, c :: cs => tokMatches t c && matchHere ts cs

/-- Like `re.search`: does the pattern match starting at some position? -/
def reSearch (ts : List RTok) (s : Str) : Bool :=
  match s with
  | [] => matchHere ts []
  | _ :: cs => matchHere ts s || reSearch ts cs

/-- The boolean mask entry for one row: `na=False` sends a NaN Name to
`False`; otherwise `re.search` with `re.IGNORECASE`. -/
def nameMatches (term : Str) (r : Record) : Bool :=
  match r.name with
  | none => false
  | some s => reSearch (compilePat term) s

/-- The search step of the script: `if search_term:` — the empty string is
falsy, so no filtering happens; otherwise keep the masked rows and
`reset_index(drop=True)` (intrinsic to the list representation). -/
def filterTable (t : Table) (term : Str) : Table :=
  if term = [] then t
  else ⟨t.records.filter (nameMatches term)⟩

/-! ## The sheet renderer (`generate_pdf`)

The drawing calls of `generate_pdf` are modelled as the ordered list of FPDF
operations the function issues; the byte serialization of that operation
list is the PDF library's job and is deterministic in it.  Floating-point
page geometry (`pdf.w`, `center_x`) is not needed by any claim and the logo
x-position is therefore kept symbolic in the `image` operation. -/

/-- One FPDF drawing call, in issue order.  Widths and heights are the
integer literals from the script. -/
inductive PdfOp where
  | image (path : Str) (w : Nat)
  | setFont (family : Str) (style : Str) (size : Nat)
  | cell (w : Nat) (h : Nat) (txt : Str) (ln : Bool) (align : Str)
  | setX (x : Nat)
  | lnBreak
deriving DecidableEq, Repr

/-- The timestamp `datetime.now()` as far as `strftime("%B %d, %Y")` reads it. -/
structure Date where
  month : Nat
  day : Nat
  year : Nat
deriving DecidableEq, Repr

/-- Directive `%B`: the full month name. -/
def monthName (m : Nat) : Str :=
  match m with
  | 1 => String.toList "January"
  | 2 => String.toList "February"
  | 3 => String.toList "March"
  | 4 => String.toList "April"
  | 5 => String.toList "May"
  | 6 => String.toList "June"
  | 7 => String.toList "July"
  | 8 => String.toList "August"
  | 9 => String.toList "September"
  | 10 => String.toList "October"
  | 11 => String.toList "November"
  | 12 => String.toList "December"
  | _ => []

/-- Directive `%d`: the day of the month, zero-padded to two digits. -/
def pad2 (n : Nat) : Str :=
  if n < 10 then '0' :: (Nat.repr n).toList else (Nat.repr n).toList

/-- The date line text `datetime.now().strftime("%B %d, %Y")`. -/
def formatDate (d : Date) : Str :=
  monthName d.month ++ [' '] ++ pad2 d.day ++ [',', ' '] ++ (Nat.repr d.year).toList

/-- Python `str(x)` applied to a cell: a string prints as itself, NaN prints as
`nan` (so a missing UOM or Value still yields a cell of text). -/
def strCell (c : Cell) : Str :=
  match c with
  | some s => s
  | none => String.toList "nan"

/-- The constant `logo_png_path`. -/
def logoPath : Str := String.toList "NOV_Logo_RGB_Full_Color.png"

/-- The body-table loop of `generate_pdf` for one record: `set_x(20)`, then
three border-0 cells with `col_widths = [60, 100, 20]` holding Name, Value,
UOM in that order (Value is printed before UOM even though the record stores
UOM before Value), then a line break. -/
def bodyRowOps (r : Record) : List PdfOp :=
  [PdfOp.setX 20,
   PdfOp.cell 60 10 (strCell r.name) false [],
   PdfOp.cell 100 10 (strCell r.value) false [],
   PdfOp.cell 20 10 (strCell r.uom) false [],
   PdfOp.lnBreak]

/-- The renderer `generate_pdf(dataframe)` as the ordered list of drawing operations it
issues: the centered 50-unit logo (skipped with a warning when the image
fails to load — `logoOk` is that environmental fact), the right-aligned
print-date line, the centered bold title, then one body row per record.
Its only inputs are the table, the timestamp read by `datetime.now()`, and
the logo asset's availability. -/
def generate_pdf (table : List Record) (now : Date) (logoOk : Bool) : List PdfOp :=
  (if logoOk then [PdfOp.image logoPath 50] else []) ++
  [PdfOp.setFont (String.toList "Arial") [] 10,
   PdfOp.cell 190 10 (String.toList "Print Date: " ++ formatDate now) true ['R'],
   PdfOp.setFont (String.toList "Arial") ['B'] 16,
   PdfOp.lnBreak,
   PdfOp.cell 190 10 (String.toList "Engineering Data Sheet") true ['C'],
   PdfOp.lnBreak,
   PdfOp.setX 20,
   PdfOp.setFont (String.toList "Arial") [] 10] ++
  (table.map bodyRowOps).flatten

/-- The text content an operation contributes to the serialized document. -/
def opText (op : PdfOp) : Str :=
  match op with
  | .cell _ _ txt _ _ => txt
  | _ => []

/-- Latin-1 encodability of one character (code point at most 255). -/
def latin1Char (c : Char) : Bool :=
  c.toNat ≤ 255

/-- Serialization `pdf.output(dest='S').encode('latin1')` succeeds only when every
character written into the document is Latin-1 encodable. -/
def latin1Ok (ops : List PdfOp) : Bool :=
  ops.all (fun op => (opText op).all latin1Char)

/-- The final serialization error of `generate_pdf`. -/
inductive RenderError where
  | unicodeEncodeError
deriving DecidableEq, Repr

/-- The return expression of `generate_pdf`, `pdf.output(dest='S').encode('latin1')`:
the operation list serialized to bytes, raising `UnicodeEncodeError` when cell
text falls outside Latin-1.  The byte buffer itself is the PDF library's
deterministic serialization of the operation list, so the operation list
stands for the bytes. -/
def generatePdfBytes (table : List Record) (now : Date) (logoOk : Bool) :
    Except RenderError (List PdfOp) :=
  let ops := generate_pdf table now logoOk
  if latin1Ok ops then .ok ops else .error .unicodeEncodeError

/-- The `(text, width)` content of the cells of an operation list, in issue
order — the printed columns of the document. -/
def cellContents (ops : List PdfOp) : List (Str × Nat) :=
  ops.filterMap (fun op =>
    match op with
    | .cell w _ txt _ _ => some (txt, w)
    | _ => none)

/-! ## Spec-side definitions for refinement claims -/

/-- Python's regular-expression metacharacters; a search string avoiding all
of them is read by `re.search` as a plain literal.  (Code points of
`. ^ $ * + ? brace bracket paren backslash bar`.) -/
def pyRegexMeta (c : Char) : Bool :=
  c.toNat ∈ [46, 94, 36, 42, 43, 63, 123, 125, 91, 93, 92, 124, 40, 41]

/-- Case-insensitive "needle is at the front of hay". -/
def prefCI (needle hay : Str) : Bool :=
  match needle, hay with
  | [], _ => true
  | _ :: _, [] => false
  | a :: as, b :: bs => (a.toLower = b.toLower) && prefCI as bs

/-- Case-insensitive substring containment: the needle occurs contiguously
somewhere in the hay. -/
def subCI (needle : Str) (hay : Str) : Bool :=
  match hay with
  | [] => prefCI needle []
  | _ :: cs => prefCI needle hay || subCI needle cs

/-- Modelled from the spec: the claimed filter semantics — "keep only rows
whose Name contains the search string as a case-insensitive substring; the
empty search string filters nothing".  Compared against `filterTable`, the
embedding of the script's pandas `str.contains` filter. -/
def filterTableSpec (t : Table) (term : Str) : Table :=
  if term = [] then t
  else ⟨t.records.filter (fun r =>
    match r.name with
    | none => false
    | some s => subCI term s)⟩

/-- Marker `="` at the front of the string — the leading wrapper of the cleaning
pattern would fire again. -/
def startsWithMarker (l : Str) : Bool :=
  match l with
  | '=' :: '"' :: _ => true
  | _ => false

/-- A bare `"` at the very end of the string — the trailing wrapper of the cleaning
pattern would fire again. -/
def endsWithQuote (l : Str) : Bool :=
  match l.getLast? with
  | some '"' => true
  | _ => false

/-! ## Helper lemmas about stripping -/

theorem dropWhile_head_not {p : α → Bool} {l : List α} {c : α}
    (h : (l.dropWhile p).head? = some c) : p c = false := by
  induction l with
  | nil => simp [List.dropWhile] at h
  | cons a l ih =>
      by_cases hpa : p a
      · rw [List.dropWhile_cons_of_pos hpa] at h
        exact ih h
      · rw [List.dropWhile_cons_of_neg hpa] at h
        simp at h
        subst h
        exact Bool.of_not_eq_true hpa

theorem dropWhile_idem {p : α → Bool} (l : List α) :
    (l.dropWhile p).dropWhile p = l.dropWhile p := by
  induction l with
  | nil => simp
  | cons a l ih =>
      by_cases hpa : p a
      · rw [List.dropWhile_cons_of_pos hpa]
        exact ih
      · rw [List.dropWhile_cons_of_neg hpa, List.dropWhile_cons_of_neg hpa]

theorem dropWhile_eq_self_of_head {p : α → Bool} {l : List α}
    (h : ∀ c, l.head? = some c → p c = false) : l.dropWhile p = l := by
  cases l with
  | nil => simp
  | cons a l =>
      have ha : p a = false := h a rfl
      rw [List.dropWhile_cons_of_neg (by simp [ha])]

theorem dropWhile_getLast? {p : α → Bool} {l : List α}
    (h : l.dropWhile p ≠ []) : (l.dropWhile p).getLast? = l.getLast? := by
  induction l with
  | nil => simp at h
  | cons a l ih =>
      by_cases hpa : p a
      · rw [List.dropWhile_cons_of_pos hpa] at h ⊢
        have hl : l ≠ [] := by
          intro he
          rw [he] at h
          simp [List.dropWhile] at h
        rw [ih h]
        cases l with
        | nil => exact absurd rfl hl
        | cons b l => rw [List.getLast?_cons_cons]
      · rw [List.dropWhile_cons_of_neg hpa]

/-- The head of `pyStrip s` is never whitespace. -/
theorem pyStrip_head {s : Str} {c : Char} (h : (pyStrip s).head? = some c) :
    pyIsSpace c = false := by
  unfold pyStrip at h
  rw [List.head?_reverse] at h
  rcases hB : (s.dropWhile pyIsSpace).reverse.dropWhile pyIsSpace with _ | ⟨b, B⟩
  · rw [hB] at h
    simp at h
  · rw [hB] at h
    have hne : (s.dropWhile pyIsSpace).reverse.dropWhile pyIsSpace ≠ [] := by
      rw [hB]
      simp
    rw [← hB, dropWhile_getLast? hne, List.getLast?_reverse] at h
    exact dropWhile_head_not h

/-- The last character of `pyStrip s` is never whitespace. -/
theorem pyStrip_getLast {s : Str} {c : Char} (h : (pyStrip s).getLast? = some c) :
    pyIsSpace c = false := by
  unfold pyStrip at h
  rw [List.getLast?_reverse] at h
  exact dropWhile_head_not h

/-- Python `str.strip()` is idempotent. -/
theorem pyStrip_idem (s : Str) : pyStrip (pyStrip s) = pyStrip s := by
  have h1 : (pyStrip s).dropWhile pyIsSpace = pyStrip s := by
    apply dropWhile_eq_self_of_head
    intro c hc
    exact pyStrip_head hc
  have h2 : (pyStrip s).reverse.dropWhile pyIsSpace = (pyStrip s).reverse := by
    apply dropWhile_eq_self_of_head
    intro c hc
    rw [List.head?_reverse] at hc
    exact pyStrip_getLast hc
  show ((((pyStrip s).dropWhile pyIsSpace).reverse).dropWhile pyIsSpace).reverse = pyStrip s
  rw [h1, h2, List.reverse_reverse]

theorem removeLeadMarker_eq_self {l : Str} (h : startsWithMarker l = false) :
    removeLeadMarker l = l := by
  unfold removeLeadMarker
  unfold startsWithMarker at h
  split
  · simp_all
  · rfl

theorem removeTrailQuote_eq_self {l : Str} (hq : endsWithQuote l = false)
    (hn : l.getLast? ≠ some '\n') : removeTrailQuote l = l := by
  unfold removeTrailQuote
  unfold endsWithQuote at hq
  split
  · rename_i rest heq
    rw [← List.head?_reverse, heq] at hq
    simp at hq
  · rename_i rest heq
    have : l.getLast? = some '\n' := by
      rw [← List.head?_reverse, heq]
      rfl
    exact absurd this hn
  · rfl

/-! ## Helper lemmas about the search filter -/

theorem compilePat_of_no_dot {p : Str} (h : ∀ c ∈ p, c ≠ '.') :
    compilePat p = p.map RTok.lit := by
  unfold compilePat
  induction p with
  | nil => rfl
  | cons a p ih =>
      have ha : a ≠ '.' := h a (List.mem_cons_self a p)
      simp only [List.map_cons, if_neg ha]
      rw [ih (fun c hc => h c (List.mem_cons_of_mem a hc))]

theorem matchHere_lit (p : Str) : ∀ s, matchHere (p.map RTok.lit) s = prefCI p s := by
  induction p with
  | nil =>
      intro s
      cases s <;> rfl
  | cons a p ih =>
      intro s
      cases s with
      | nil => rfl
      | cons b s =>
          show (tokMatches (RTok.lit a) b && matchHere (p.map RTok.lit) s) = _
          rw [ih s]
          rfl

theorem reSearch_lit (p : Str) : ∀ s, reSearch (p.map RTok.lit) s = subCI p s := by
  intro s
  induction s with
  | nil =>
      show matchHere (p.map RTok.lit) [] = subCI p []
      rw [matchHere_lit]
      rfl
  | cons b s ih =>
      show (matchHere (p.map RTok.lit) (b :: s) || reSearch (p.map RTok.lit) s) = _
      rw [matchHere_lit, ih]
      rfl

theorem no_meta_no_dot {p : Str} (h : ∀ c ∈ p, pyRegexMeta c = false) :
    ∀ c ∈ p, c ≠ '.' := by
  intro c hc he
  have := h c hc
  rw [he] at this
  simp [pyRegexMeta] at this

/-! ## Helper lemmas about the normalizer -/

/-- Only the first three cells of a row reach the record. -/
theorem toRecord_take (row : List Cell) : toRecord (row.take 3) = toRecord row := by
  match row with
  | [] => rfl
  | [_] => rfl
  | [_, _] => rfl
  | _ :: _ :: _ :: _ => rfl

theorem labelPositionsFrom_cons_eq (l : ColLabel) (ls : List ColLabel)
    (lbl : ColLabel) (j : Nat) (h : l = lbl) :
    labelPositionsFrom (l :: ls) lbl j = j :: labelPositionsFrom ls lbl (j + 1) := by
  show (if l = lbl then j :: labelPositionsFrom ls lbl (j + 1)
        else labelPositionsFrom ls lbl (j + 1)) = _
  rw [if_pos h]

theorem labelPositionsFrom_cons_ne (l : ColLabel) (ls : List ColLabel)
    (lbl : ColLabel) (j : Nat) (h : ¬ l = lbl) :
    labelPositionsFrom (l :: ls) lbl j = labelPositionsFrom ls lbl (j + 1) := by
  show (if l = lbl then j :: labelPositionsFrom ls lbl (j + 1)
        else labelPositionsFrom ls lbl (j + 1)) = _
  rw [if_neg h]

theorem labelPositionsFrom_eq_nil {labels : List ColLabel} {lbl : ColLabel}
    (h : ∀ l ∈ labels, l ≠ lbl) : ∀ j, labelPositionsFrom labels lbl j = [] := by
  induction labels with
  | nil => intro j; rfl
  | cons a ls ih =>
      intro j
      rw [labelPositionsFrom_cons_ne a ls lbl j (h a (List.mem_cons_self a ls))]
      exact ih (fun l hl => h l (List.mem_cons_of_mem a hl)) (j + 1)

theorem labelPositionsFrom_length (lbl : ColLabel) :
    ∀ (labels : List ColLabel) (j : Nat),
      (labelPositionsFrom labels lbl j).length
        = labels.countP (fun l => decide (l = lbl)) := by
  intro labels
  induction labels with
  | nil => intro j; rfl
  | cons a ls ih =>
      intro j
      by_cases ha : a = lbl
      · rw [labelPositionsFrom_cons_eq a ls lbl j ha]
        simp [List.countP_cons, ha, ih]
      · rw [labelPositionsFrom_cons_ne a ls lbl j ha]
        simp [List.countP_cons, ha, ih]

theorem noCollision_not_mem {df : RawDF} {h : Bool}
    (hnc : noLabelCollision df h = true) :
    ∀ l ∈ (origLabels df h).drop 3, l ∉ tableLabels := by
  intro l hl
  have := List.all_eq_true.mp hnc l hl
  simpa using this

/-- Without a label collision the selection of line 34 keeps exactly the
three renamed columns, in order. -/
theorem selectedCols_noCollision {df : RawDF} {h : Bool}
    (hnc : noLabelCollision df h = true) :
    selectedCols df h = [0, 1, 2] := by
  have hmem := noCollision_not_mem hnc
  have hN : ∀ l ∈ (origLabels df h).drop 3, l ≠ nameLabel :=
    fun l hl he => hmem l hl (by rw [he]; decide)
  have hU : ∀ l ∈ (origLabels df h).drop 3, l ≠ uomLabel :=
    fun l hl he => hmem l hl (by rw [he]; decide)
  have hV : ∀ l ∈ (origLabels df h).drop 3, l ≠ valueLabel :=
    fun l hl he => hmem l hl (by rw [he]; decide)
  have happ : renamedLabels df h
      = nameLabel :: uomLabel :: valueLabel :: (origLabels df h).drop 3 := rfl
  have pN : labelPositions (renamedLabels df h) nameLabel = [0] := by
    unfold labelPositions
    rw [happ, labelPositionsFrom_cons_eq _ _ _ _ rfl,
        labelPositionsFrom_cons_ne _ _ _ _ (by decide),
        labelPositionsFrom_cons_ne _ _ _ _ (by decide),
        labelPositionsFrom_eq_nil hN 3]
  have pU : labelPositions (renamedLabels df h) uomLabel = [1] := by
    unfold labelPositions
    rw [happ, labelPositionsFrom_cons_ne _ _ _ _ (by decide),
        labelPositionsFrom_cons_eq _ _ _ _ rfl,
        labelPositionsFrom_cons_ne _ _ _ _ (by decide),
        labelPositionsFrom_eq_nil hU 3]
  have pV : labelPositions (renamedLabels df h) valueLabel = [2] := by
    unfold labelPositions
    rw [happ, labelPositionsFrom_cons_ne _ _ _ _ (by decide),
        labelPositionsFrom_cons_ne _ _ _ _ (by decide),
        labelPositionsFrom_cons_eq _ _ _ _ rfl,
        labelPositionsFrom_eq_nil hV 3]
  unfold selectedCols
  rw [pN, pU, pV]
  rfl

/-- Without a collision the selected frame is labelled Name, UOM, Value. -/
theorem selLabels_noCollision {df : RawDF} {h : Bool}
    (hnc : noLabelCollision df h = true) :
    selLabels df h = tableLabels := by
  unfold selLabels
  rw [selectedCols_noCollision hnc]
  rfl

/-- Without a collision the selected rows are the first three cells of each
body row, cleaned, kept iff the (sole) Name cell is present. -/
theorem selRows_noCollision {df : RawDF} {h : Bool}
    (hnc : noLabelCollision df h = true) :
    selRows df h
      = ((bodyRows df h).map
          (fun row => (selectCells [0, 1, 2] row).map clean_value)).filter
        (dropnaKeep tableLabels) := by
  unfold selRows
  rw [selectedCols_noCollision hnc, selLabels_noCollision hnc]

/-- The rows of the collision-free frame, read as records, are exactly
`normalizedRecords`. -/
theorem frameRows_eq_normalizedRecords (df : RawDF) (h : Bool) :
    (((bodyRows df h).map
        (fun row => (selectCells [0, 1, 2] row).map clean_value)).filter
      (dropnaKeep tableLabels)).map toRecord = normalizedRecords df h := by
  rw [List.filter_map, List.map_map]
  unfold normalizedRecords
  rw [List.map_map, List.filter_map]
  congr 1
  apply List.filter_congr
  intro row _
  show ((clean_value (cellAt row 0)).isSome && true)
      = (clean_value (cellAt row 0)).isSome
  exact Bool.and_true _

/-- Without a collision the Table-level normalizer is the old three-column
pipeline. -/
theorem normalizeTable_noCollision (df : RawDF) (h : Bool) (hc : 3 ≤ df.ncols)
    (hnc : noLabelCollision df h = true) :
    normalizeTable df h = Except.ok ⟨normalizedRecords df h⟩ := by
  unfold normalizeTable normalizeFrame
  rw [if_pos hc]
  show frameToTable ⟨selLabels df h, selRows df h⟩ = _
  unfold frameToTable
  rw [selLabels_noCollision hnc]
  rw [if_pos rfl, selRows_noCollision hnc, frameRows_eq_normalizedRecords]

/-- A collision keeps at least one extra column: the selection has at least
four positions. -/
theorem selectedCols_length_ge_four {df : RawDF} {h : Bool}
    (hcol : noLabelCollision df h = false) :
    4 ≤ (selectedCols df h).length := by
  obtain ⟨l, hl, hmem⟩ : ∃ l ∈ (origLabels df h).drop 3, l ∈ tableLabels := by
    by_contra hno
    push_neg at hno
    have htrue : noLabelCollision df h = true := by
      unfold noLabelCollision
      rw [List.all_eq_true]
      intro x hx
      simpa using hno x hx
    rw [htrue] at hcol
    cases hcol
  unfold selectedCols labelPositions
  rw [List.length_append, List.length_append,
      labelPositionsFrom_length, labelPositionsFrom_length,
      labelPositionsFrom_length]
  unfold renamedLabels
  rw [List.countP_append, List.countP_append, List.countP_append]
  have c1 : List.countP (fun x => decide (x = nameLabel)) tableLabels = 1 := by decide
  have c2 : List.countP (fun x => decide (x = uomLabel)) tableLabels = 1 := by decide
  have c3 : List.countP (fun x => decide (x = valueLabel)) tableLabels = 1 := by decide
  rw [c1, c2, c3]
  have hcase : l = nameLabel ∨ l = uomLabel ∨ l = valueLabel := by
    simpa [tableLabels] using hmem
  rcases hcase with h1 | h1 | h1
  · have hpos : 0 < List.countP (fun x => decide (x = nameLabel))
        ((origLabels df h).drop 3) :=
      List.countP_pos_iff.mpr ⟨l, hl, by simp [h1]⟩
    omega
  · have hpos : 0 < List.countP (fun x => decide (x = uomLabel))
        ((origLabels df h).drop 3) :=
      List.countP_pos_iff.mpr ⟨l, hl, by simp [h1]⟩
    omega
  · have hpos : 0 < List.countP (fun x => decide (x = valueLabel))
        ((origLabels df h).drop 3) :=
      List.countP_pos_iff.mpr ⟨l, hl, by simp [h1]⟩
    omega

/-- With a collision the frame is not the three-field table: the Table view
fails. -/
theorem normalizeTable_collision {df : RawDF} {h : Bool} (hc : 3 ≤ df.ncols)
    (hcol : noLabelCollision df h = false) :
    normalizeTable df h = Except.error SchemaError.duplicateLabels := by
  unfold normalizeTable normalizeFrame
  rw [if_pos hc]
  show frameToTable ⟨selLabels df h, selRows df h⟩ = _
  unfold frameToTable
  rw [if_neg ?hne]
  case hne =>
    intro heq
    have hlen := congrArg List.length heq
    have hsel := selectedCols_length_ge_four hcol
    unfold selLabels at hlen
    rw [List.length_map] at hlen
    have : tableLabels.length = 3 := rfl
    omega

/-- A successful Table-level normalization pins down everything: enough
columns, no collision, and the records are the three-column pipeline's. -/
theorem normalizeTable_ok_elim {df : RawDF} {h : Bool} {t : Table}
    (hok : normalizeTable df h = Except.ok t) :
    3 ≤ df.ncols ∧ noLabelCollision df h = true
      ∧ t = ⟨normalizedRecords df h⟩ := by
  by_cases hc : 3 ≤ df.ncols
  · by_cases hnc : noLabelCollision df h = true
    · refine ⟨hc, hnc, ?_⟩
      rw [normalizeTable_noCollision df h hc hnc] at hok
      exact (Except.ok.inj hok).symm
    · exfalso
      rw [normalizeTable_collision hc (Bool.eq_false_iff.mpr hnc)] at hok
      cases hok
  · exfalso
    unfold normalizeTable normalizeFrame at hok
    rw [if_neg hc] at hok
    cases hok

/-! ## Claims -/

/-- C1 (counterexample): the spec's vector `clean('"abc"') == '"abc"'` is
false on the code: the pattern `r'^="|"$'` strips the trailing bare quote
even when there is no leading `="` marker (exactly as the spec's own
`clean('abc"') == 'abc'` vector demands), so `clean('"abc"')` returns
`'"abc'`, not `'"abc"'` unchanged. -/
theorem C1_counterexample :
    cleanStr (String.toList "\"abc\"") = String.toList "\"abc" ∧
    cleanStr (String.toList "\"abc\"") ≠ String.toList "\"abc\"" := by
  constructor
  · decide
  · decide

/-- C1 (amended): the value-cleaning function satisfies the spec's test
vectors with the second one corrected: `clean('="123"') = '123'`,
`clean('"abc"') = '"abc'` (the leading bare quote is kept, the trailing
bare quote is stripped), `clean('abc"') = 'abc'`, `clean('="abc') = 'abc'`. -/
theorem C1_clean_test_vectors :
    cleanStr (String.toList "=\"123\"") = String.toList "123" ∧
    cleanStr (String.toList "\"abc\"") = String.toList "\"abc" ∧
    cleanStr (String.toList "abc\"") = String.toList "abc" ∧
    cleanStr (String.toList "=\"abc") = String.toList "abc" := by
  refine ⟨?_, ?_, ?_, ?_⟩ <;> decide

/-- C2 (counterexample): cleaning is not idempotent.  For `x = '""'` the
single `re.sub` pass removes only the end-anchored quote, leaving `'"'`,
and a second cleaning removes that one too: `clean(clean(x)) = '' ≠ '"' =
clean(x)`. -/
theorem C2_counterexample :
    cleanStr (String.toList "\"\"") = ['"'] ∧
    cleanStr (cleanStr (String.toList "\"\"")) = [] ∧
    cleanStr (cleanStr (String.toList "\"\"")) ≠ cleanStr (String.toList "\"\"") := by
  refine ⟨?_, ?_, ?_⟩ <;> decide

/-- C2 (amended): cleaning is idempotent exactly on the strings whose
cleaned form gives the pattern nothing further to strip: whenever
`clean(x)` neither starts with the `="` marker nor ends with a bare quote,
`clean(clean(x)) = clean(x)`.  (Trimming is always idempotent; the failure
of unconditional idempotence is witnessed by `x = '""'`.) -/
theorem C2_clean_conditionally_idempotent (s : Str)
    (h1 : startsWithMarker (cleanStr s) = false)
    (h2 : endsWithQuote (cleanStr s) = false) :
    cleanStr (cleanStr s) = cleanStr s := by
  have hn : (cleanStr s).getLast? ≠ some '\n' := by
    intro hlast
    unfold cleanStr at hlast
    have hsp := pyStrip_getLast hlast
    simp [pyIsSpace] at hsp
  calc cleanStr (cleanStr s)
      = pyStrip (removeTrailQuote (removeLeadMarker (cleanStr s))) := rfl
    _ = pyStrip (removeTrailQuote (cleanStr s)) := by
        rw [removeLeadMarker_eq_self h1]
    _ = pyStrip (cleanStr s) := by
        rw [removeTrailQuote_eq_self h2 hn]
    _ = cleanStr s := by
        show pyStrip (pyStrip (removeTrailQuote (removeLeadMarker s))) = _
        exact pyStrip_idem _

/-- Witness for C2: the hypotheses hold at `s = "abc"` and the conclusion
evaluates there. -/
theorem C2_clean_conditionally_idempotent_witness :
    startsWithMarker (cleanStr (String.toList "abc")) = false ∧
    endsWithQuote (cleanStr (String.toList "abc")) = false ∧
    cleanStr (cleanStr (String.toList "abc")) = cleanStr (String.toList "abc") :=
  ⟨by decide, by decide,
    C2_clean_conditionally_idempotent (String.toList "abc") (by decide) (by decide)⟩

/-- C3 (counterexample): a row whose Name cleans to the empty string is NOT
dropped.  `dropna(subset=["Name"])` removes only missing values (NaN); the
cell `'=""'` cleans to the empty string `''`, which is a string, not NaN,
so the row survives normalization. -/
theorem C3_counterexample :
    normalizeTable ⟨3, [[some (String.toList "=\"\""), some ['u'], some ['v']]]⟩ false
      = Except.ok ⟨[⟨some [], some ['u'], some ['v']⟩]⟩ ∧
    normalizeTable ⟨3, [[some (String.toList "=\"\""), some ['u'], some ['v']]]⟩ false
      ≠ Except.ok ⟨[]⟩ ∧
    (⟨some [], some ['u'], some ['v']⟩ : Record).name = some [] := by
  refine ⟨?_, ?_, ?_⟩ <;> decide

/-- C3 (amended): after cleaning, exactly the rows whose Name is missing
(NaN) are dropped — dropna applies to Name only, so a missing UOM or Value
never drops a row, and the surviving rows appear reindexed in the output
list; a Name that is the empty string after cleaning is kept, not dropped. -/
theorem C3_dropna_name_only (df : RawDF) (h : Bool) (t : Table)
    (hok : normalizeTable df h = Except.ok t) :
    (∀ r ∈ t.records, r.name ≠ none) ∧
    (∀ row ∈ bodyRows df h, (cleanRecord (toRecord row)).name ≠ none →
      cleanRecord (toRecord row) ∈ t.records) := by
  obtain ⟨hc, hnc, ht⟩ := normalizeTable_ok_elim hok
  subst ht
  constructor
  · intro r hr
    have hm := (List.mem_filter.mp hr).2
    exact Option.isSome_iff_ne_none.mp hm
  · intro row hrow hname
    apply List.mem_filter.mpr
    constructor
    · exact List.mem_map_of_mem cleanRecord (List.mem_map_of_mem toRecord hrow)
    · exact Option.isSome_iff_ne_none.mpr hname

/-- Witness for C3: a kept record whose UOM and Value are both missing. -/
theorem C3_dropna_name_only_witness :
    (⟨some ['a'], none, none⟩ : Record).name ≠ none :=
  (C3_dropna_name_only ⟨3, [[some ['a']]]⟩ false ⟨[⟨some ['a'], none, none⟩]⟩
      (by decide)).1 ⟨some ['a'], none, none⟩ (by decide)

/-- C4: with fewer than three columns normalization fails with the schema
error and produces no table — the run stops with no partial output. -/
theorem C4_schema_error (df : RawDF) (h : Bool) (hc : df.ncols < 3) :
    normalizeTable df h = Except.error SchemaError.tooFewColumns := by
  unfold normalizeTable normalizeFrame
  rw [if_neg (by omega)]

/-- Witness for C4: a two-column input fails. -/
theorem C4_schema_error_witness :
    normalizeTable ⟨2, [[some ['a'], some ['b']]]⟩ false
      = Except.error SchemaError.tooFewColumns :=
  C4_schema_error ⟨2, [[some ['a'], some ['b']]]⟩ false (by decide)

/-- C5 (counterexample): the claim is false for a header whose fourth cell
is literally `Name`.  With header `a, b, c, Name` the rename of line 28
produces the duplicate labels Name, UOM, Value, Name; the label-based
selection `df[["Name", "UOM", "Value"]]` keeps the colliding fourth column
(the frame below has four labels, the extra column is NOT discarded), and
`dropna(subset=["Name"])` spans both Name-labelled columns, so the data
row `x, u, v, <NaN>` is dropped although its first Name is present.  No
three-field Table is produced. -/
theorem C5_counterexample :
    normalizeFrame ⟨4, [[some (String.toList "a"), some (String.toList "b"),
          some (String.toList "c"), some (String.toList "Name")],
        [some (String.toList "x"), some (String.toList "u"),
          some (String.toList "v"), none]]⟩ true
      = Except.ok ⟨[nameLabel, nameLabel, uomLabel, valueLabel], []⟩ ∧
    normalizeTable ⟨4, [[some (String.toList "a"), some (String.toList "b"),
          some (String.toList "c"), some (String.toList "Name")],
        [some (String.toList "x"), some (String.toList "u"),
          some (String.toList "v"), none]]⟩ true
      = Except.error SchemaError.duplicateLabels := by
  constructor
  · decide
  · decide

/-- C5 (amended): for every input with at least three columns in which no
column beyond the third is relabelled to Name, UOM or Value (no label
collision — automatic whenever the first row is not used as a header),
normalization succeeds, the output has exactly the three fields Name, UOM,
Value in that fixed order (the `Record` type), and only the first three
input columns matter: the result is unchanged when every row is truncated
to its first three cells and the column count to three.  When a later
header cell is literally Name, UOM or Value, the selection keeps the
colliding column and no three-field Table is produced. -/
theorem C5_first_three_columns (df : RawDF) (h : Bool) (hc : 3 ≤ df.ncols)
    (hnc : noLabelCollision df h = true) :
    (∃ t, normalizeTable df h = Except.ok t) ∧
    normalizeTable df h
      = normalizeTable ⟨3, df.rows.map (fun row => row.take 3)⟩ h := by
  have hleft := normalizeTable_noCollision df h hc hnc
  constructor
  · exact ⟨⟨normalizedRecords df h⟩, hleft⟩
  · have hnc' : noLabelCollision ⟨3, df.rows.map (fun row => row.take 3)⟩ h
        = true := by
      cases h <;> rfl
    have hright := normalizeTable_noCollision
      ⟨3, df.rows.map (fun row => row.take 3)⟩ h (by norm_num) hnc'
    rw [hleft, hright]
    have hb : bodyRows ⟨3, df.rows.map (fun row => row.take 3)⟩ h
        = (bodyRows df h).map (fun row => row.take 3) := by
      cases h <;> simp [bodyRows]
    have hrec : ((bodyRows df h).map (fun row => row.take 3)).map toRecord
        = (bodyRows df h).map toRecord := by
      rw [List.map_map]
      refine List.map_congr_left ?_
      intro row _
      show toRecord (row.take 3) = toRecord row
      exact toRecord_take row
    congr 1
    congr 1
    unfold normalizedRecords
    rw [hb, hrec]

/-- Witness for C5: a four-column headerless input (hence no collision)
normalizes as its three-column truncation does. -/
theorem C5_first_three_columns_witness :
    normalizeTable ⟨4, [[some ['a'], some ['u'], some ['v'], some ['x']]]⟩ false
      = normalizeTable
          ⟨3, [[some ['a'], some ['u'], some ['v'], some ['x']]].map
            (fun row => row.take 3)⟩ false :=
  (C5_first_three_columns ⟨4, [[some ['a'], some ['u'], some ['v'], some ['x']]]⟩
    false (by decide) (by decide)).2

/-- C6 (counterexample): the name filter is not substring search.  pandas
`str.contains` defaults to `regex=True`, so the search string `'.'` is the
regex wildcard: the row named `"ab"` survives filtering by `'.'` although
`'.'` is not a substring of `"ab"` — the spec-side substring filter drops
it. -/
theorem C6_counterexample :
    filterTable ⟨[⟨some ['a', 'b'], none, none⟩]⟩ ['.']
      = ⟨[⟨some ['a', 'b'], none, none⟩]⟩ ∧
    filterTableSpec ⟨[⟨some ['a', 'b'], none, none⟩]⟩ ['.'] = ⟨[]⟩ ∧
    subCI ['.'] ['a', 'b'] = false := by
  refine ⟨?_, ?_, ?_⟩ <;> decide

/-- C6 (amended): the search string is interpreted as a regular expression
(pandas `str.contains` default); for search strings containing no regex
metacharacter the filter keeps exactly the rows whose Name contains the
string as a case-insensitive substring, and the empty search string
returns the table unchanged (survivors are reindexed by the list
representation). -/
theorem C6_filter_literal_substring :
    (∀ t : Table, filterTable t [] = t) ∧
    (∀ (t : Table) (term : Str), term ≠ [] →
      (∀ c ∈ term, pyRegexMeta c = false) →
      filterTable t term = filterTableSpec t term) := by
  constructor
  · intro t
    unfold filterTable
    rw [if_pos rfl]
  · intro t term hne hmeta
    unfold filterTable filterTableSpec
    rw [if_neg hne, if_neg hne]
    congr 1
    apply List.filter_congr
    intro r _
    unfold nameMatches
    rw [compilePat_of_no_dot (no_meta_no_dot hmeta)]
    cases r.name with
    | none => rfl
    | some s => exact reSearch_lit term s

/-- Witness for C6: the empty search string leaves a concrete table
unchanged, and a literal search string agrees with substring filtering
(and is case-insensitive: `'B'` keeps the row named `"ab"`). -/
theorem C6_filter_literal_substring_witness :
    filterTable ⟨[⟨some ['a', 'b'], none, none⟩]⟩ []
      = ⟨[⟨some ['a', 'b'], none, none⟩]⟩ ∧
    filterTable ⟨[⟨some ['a', 'b'], none, none⟩]⟩ ['B']
      = filterTableSpec ⟨[⟨some ['a', 'b'], none, none⟩]⟩ ['B'] :=
  ⟨C6_filter_literal_substring.1 ⟨[⟨some ['a', 'b'], none, none⟩]⟩,
   C6_filter_literal_substring.2 ⟨[⟨some ['a', 'b'], none, none⟩]⟩ ['B']
     (by decide) (by decide)⟩

theorem cellContents_append (l1 l2 : List PdfOp) :
    cellContents (l1 ++ l2) = cellContents l1 ++ cellContents l2 := by
  unfold cellContents
  exact List.filterMap_append l1 l2 _

theorem cellContents_flatten (L : List (List PdfOp)) :
    cellContents L.flatten = (L.map cellContents).flatten := by
  unfold cellContents
  exact List.filterMap_flatten _ L

theorem cellContents_nil : cellContents [] = [] := rfl

theorem cellContents_cons (op : PdfOp) (ops : List PdfOp) :
    cellContents (op :: ops)
      = (match op with
          | PdfOp.cell w _ txt _ _ => [(txt, w)]
          | _ => []) ++ cellContents ops := by
  unfold cellContents
  rw [List.filterMap_cons]
  cases op <;> rfl

theorem cellContents_bodyRowOps (r : Record) :
    cellContents (bodyRowOps r)
      = [(strCell r.name, 60), (strCell r.value, 100), (strCell r.uom, 20)] := rfl

/-- C7: every rendered body line prints its record's cells in the order
Name, Value, UOM — Value before UOM, unlike the data model's field order —
with the fixed widths 60, 100, 20; and for the record
`{Name: "Temp", UOM: "C", Value: "100"}` row 0 prints `"Temp"`, `"100"`,
`"C"` in that order. -/
theorem C7_body_cell_order :
    (∀ (table : List Record) (now : Date) (logoOk : Bool),
      cellContents (generate_pdf table now logoOk) =
        (String.toList "Print Date: " ++ formatDate now, 190) ::
        (String.toList "Engineering Data Sheet", 190) ::
        (table.map (fun r =>
          [(strCell r.name, 60), (strCell r.value, 100), (strCell r.uom, 20)])).flatten) ∧
    cellContents (generate_pdf
        [⟨some (String.toList "Temp"), some ['C'], some (String.toList "100")⟩]
        ⟨3, 3, 2025⟩ true) =
      [(String.toList "Print Date: March 03, 2025", 190),
       (String.toList "Engineering Data Sheet", 190),
       (String.toList "Temp", 60), (String.toList "100", 100),
       (String.toList "C", 20)] := by
  constructor
  · intro table now logoOk
    unfold generate_pdf
    cases logoOk <;>
      simp [cellContents_append, cellContents_flatten, cellContents_cons,
        cellContents_nil, List.map_map] <;>
      exact congrArg List.flatten
        (List.map_congr_left (fun r _ => cellContents_bodyRowOps r))
  · decide

/-- C8: the renderer is a function of exactly the table, the timestamp read
by `datetime.now()`, and the logo asset's availability; two invocations on
the same table at the same instant (hence the same logo state) produce
identical output. -/
theorem C8_render_deterministic (t₁ t₂ : List Record) (d₁ d₂ : Date)
    (l₁ l₂ : Bool) (ht : t₁ = t₂) (hd : d₁ = d₂) (hl : l₁ = l₂) :
    generatePdfBytes t₁ d₁ l₁ = generatePdfBytes t₂ d₂ l₂ := by
  subst ht
  subst hd
  subst hl
  rfl

/-- Witness for C8: two renders of the empty table at the same instant. -/
theorem C8_render_deterministic_witness :
    generatePdfBytes [] ⟨3, 3, 2025⟩ true = generatePdfBytes [] ⟨3, 3, 2025⟩ true :=
  C8_render_deterministic [] [] ⟨3, 3, 2025⟩ ⟨3, 3, 2025⟩ true true rfl rfl rfl

/-- C9: serialization requires Latin-1: a table containing `"€"` (U+20AC,
outside Latin-1) makes `pdf.output(dest='S').encode('latin1')` raise, so the
export fails on data content; the same table with an ASCII name exports
fine, showing the failure is not structural. -/
theorem C9_latin1_failure :
    generatePdfBytes [⟨some ['€'], some ['C'], some ['1']⟩] ⟨3, 3, 2025⟩ true
      = Except.error RenderError.unicodeEncodeError ∧
    generatePdfBytes [⟨some ['E'], some ['C'], some ['1']⟩] ⟨3, 3, 2025⟩ true
      = Except.ok (generate_pdf [⟨some ['E'], some ['C'], some ['1']⟩]
          ⟨3, 3, 2025⟩ true) := by
  constructor
  · decide
  · decide

/-- C10: normalization and filtering preserve relative row order: the
filtered table's records are a subsequence of the normalized table's, which
are themselves a subsequence of the cleaned projections of the input rows —
no operation reorders surviving rows. -/
theorem C10_order_preserved (df : RawDF) (h : Bool) (t : Table) (term : Str)
    (hok : normalizeTable df h = Except.ok t) :
    List.Sublist (filterTable t term).records t.records ∧
    List.Sublist t.records (((bodyRows df h).map toRecord).map cleanRecord) := by
  obtain ⟨hc, hnc, ht⟩ := normalizeTable_ok_elim hok
  subst ht
  constructor
  · unfold filterTable
    by_cases he : term = []
    · rw [if_pos he]
    · rw [if_neg he]
      exact List.filter_sublist _
  · exact List.filter_sublist _

/-- Witness for C10: a concrete normalized table, filtered by a term
matching nothing, is a subsequence of the table's records. -/
theorem C10_order_preserved_witness :
    List.Sublist (filterTable ⟨[⟨some ['a'], none, none⟩]⟩ ['z']).records
      (⟨[⟨some ['a'], none, none⟩]⟩ : Table).records :=
  (C10_order_preserved ⟨3, [[some ['a']]]⟩ false ⟨[⟨some ['a'], none, none⟩]⟩
    ['z'] (by decide)).1
